import Mathlib

/-!
Verification of the two plotting scripts of the Real-Hourly-Wages-Change
repository: `OECD_hourly_wages_map.py` and `OECD_hourly_wages_barchart.py`.

The scripts are linear pandas/geopandas pipelines.  We embed the data-massaging
steps shallowly: dataframes become lists of row structures, numeric columns
become rationals (`ℚ`), nullable cells become `Option`, and planar geometries
become point sets over `ℚ × ℚ`.  Each definition is translated from the Python
source; theorems then settle the specification claims about those steps.
-/

namespace HourlyWages

/-! ## Bin categorization (map script, lines 161-172)

`bins = [-np.inf, 0, 10, 20, 30, 40, 60, np.inf]` and
`pd.cut(..., bins=bins, labels=labels, right=True, include_lowest=True)`.
The two outer edges are infinite, so only the six finite interior edges
matter: with `right=True`, interval `i` is the right-closed
`(bins[i], bins[i+1]]`, and a null (NaN) input is left uncategorized. -/

/-- The six finite interior bin edges of `bins` (the outer edges are `±∞`). -/
def bins_inner : List ℚ := [0, 10, 20, 30, 40, 60]

/-- `labels` from the map script. -/
def labels : List String := ["< 0%", "0–10%", "10–20%", "20–30%", "30–40%", "40–60%", "60%+"]

/-- `pd.cut` with `right=True` over edges `[-∞, e₁, …, eₙ, ∞]`: scan the finite
interior edges in order; the first edge `e` with `v ≤ e` selects the current
label, and a value beyond every finite edge falls in the last, unbounded bin. -/
def pdCutScan : List ℚ → List String → ℚ → Option String
  | [], [l], _ => some l
  | e :: es, l :: ls, v => if v ≤ e then some l else pdCutScan es ls v
  | _, _, _ => none

/-- The `change_bins` column: `pd.cut(df_mrg['pct_change_2007_2024'], bins, labels,
right=True, include_lowest=True)`; a null percentage change yields a null bin. -/
def change_bins (v : Option ℚ) : Option String :=
  v.bind (pdCutScan bins_inner labels)

/-- The binning rule as the specification words it: a right-closed piecewise
case split on the thresholds 0, 10, 20, 30, 40, 60. -/
def specBin (v : ℚ) : String :=
  if v ≤ 0 then "< 0%"
  else if v ≤ 10 then "0–10%"
  else if v ≤ 20 then "10–20%"
  else if v ≤ 30 then "20–30%"
  else if v ≤ 40 then "30–40%"
  else if v ≤ 60 then "40–60%"
  else "60%+"

/-! ## The fixed SQL query (both scripts) -/

/-- `query` in `OECD_hourly_wages_barchart.py`, line 56. -/
def barchart_query : String := "SELECT * FROM oecd_hw_change"

/-- `query` in `OECD_hourly_wages_map.py`, line 55. -/
def map_query : String := "SELECT * FROM oecd_hw_change"

/-! ## Geometry model

Shapely geometries are sets of points of the plane; `union`, `difference` and
`unary_union` are the set operations.  `buffer(0)` is a topology clean-up that
leaves the covered point set unchanged, so as a point set it is the identity. -/

/-- A point of the plane (coordinates in the layer's CRS). -/
abbrev Point := ℚ × ℚ

/-- A shapely geometry, as the set of plane points it covers. -/
abbrev Geo := Set Point

/-- `buffer(0)`: topology clean-up, identity on the covered point set. -/
def buffer0 (g : Geo) : Geo := g

/-- `shapely.ops.unary_union` of a list of geometries: the union of their
point sets. -/
def unary_union (l : List Geo) : Geo := l.foldr (· ∪ ·) ∅

/-- A row of the merged GeoDataFrame `df_mrg`: the wage columns from `df`
(null when the right join found no wage row), the `NAME` key and the geometry
from the `europe` layer.  The geometry column type is a parameter so that the
join itself, which never inspects geometries, stays polymorphic. -/
structure MRow (G : Type) where
  country : Option String
  pct : Option ℚ
  NAME : String
  geometry : G

/-- `df_mrg.loc[df_mrg['NAME'] == name, 'geometry'] = ...apply(f)`: rewrite the
geometry of every row whose `NAME` matches, leave all other rows alone. -/
def locApplyGeom {G : Type} (name : String) (f : G → G) (rows : List (MRow G)) :
    List (MRow G) :=
  rows.map fun r => if r.NAME = name then { r with geometry := f r.geometry } else r

/-- The Crimea territorial adjustment (map script, lines 138-147): first
`Russia`'s geometry becomes `g.difference(crimea).buffer(0)`, then `Ukraine`'s
becomes `g.union(crimea)`. -/
def crimeaAdjust (crimea : Geo) (rows : List (MRow Geo)) : List (MRow Geo) :=
  locApplyGeom "Ukraine" (fun g => g ∪ crimea)
    (locApplyGeom "Russia" (fun g => buffer0 (g \ crimea)) rows)

/-! ## Russian island removal (map script, lines 149-155)

`explode(index_parts=False)` decomposes Russia's multipolygon into its
connected parts; each part carries its point set and its `area`.  The parts
with `area > min_area` are kept and re-unioned into `clean_russia`. -/

/-- One connected part of an exploded multipolygon: its point set and its
shapely `area`. -/
structure GPart where
  shape : Geo
  area : ℚ

/-- `min_area = 0.10`, the minimum-area threshold for Russia's parts. -/
def min_area : ℚ := 0.10

/-- A row of `df_mrg` with its geometry in exploded form (a list of connected
parts), the granularity at which the island-removal step works. -/
abbrev PRow := MRow (List GPart)

/-- The Russia clean-up step: explode the geometry of the `Russia` rows into
`russia_parts`, keep `large_parts` (the parts with `area > min_area`), and
assign their union back to the `Russia` rows.  The union of a list of pairwise
disjoint parts is represented by the list itself. -/
def cleanRussiaStep (rows : List PRow) : List PRow :=
  let russia_parts := (rows.filter (fun r => r.NAME = "Russia")).flatMap (fun r => r.geometry)
  let large_parts := russia_parts.filter (fun part => min_area < part.area)
  rows.map fun r => if r.NAME = "Russia" then { r with geometry := large_parts } else r

/-! ## Cyprus merge (map script, lines 72-80)

`full_cy = unary_union(south ++ north)` (with `north` already reprojected to
the world layer's CRS), then a morphological closing of radius 0.05:
`buffer(0.05, join_style=1)` followed by `buffer(-0.05, join_style=1)`. -/

/-- Squared Euclidean distance between two plane points. -/
def dist2 (p q : Point) : ℚ := (p.1 - q.1) ^ 2 + (p.2 - q.2) ^ 2

/-- `buffer(r)` with `join_style=1` (round) for `r > 0`: Minkowski dilation by
a closed disk of radius `r`. -/
def bufferPos (r : ℚ) (g : Geo) : Geo := { q | ∃ p ∈ g, dist2 p q ≤ r ^ 2 }

/-- `buffer(-r)` with `join_style=1` for `r > 0`: erosion by a closed disk of
radius `r`. -/
def bufferNeg (r : ℚ) (g : Geo) : Geo := { q | ∀ p, dist2 q p ≤ r ^ 2 → p ∈ g }

/-- Morphological closing of radius `r`: dilation then erosion. -/
def closing (r : ℚ) (g : Geo) : Geo := bufferNeg r (bufferPos r g)

/-- A row of the `world` countries layer (columns the script touches). -/
structure WRow where
  NAME : String
  CONTINENT : String
  geometry : Geo

/-- `full_cy`: the union of the world layer's `Cyprus` geometries (`south_cy`)
and the reprojected disputed-layer `N. Cyprus` geometry (`north_cy`),
smoothed by a closing of radius 0.05. -/
def full_cy (south_cy : List Geo) (north_cy : Geo) : Geo :=
  closing (5 / 100) (unary_union (south_cy ++ [north_cy]))

/-- The Cyprus replacement step: read `south_cy` off the world layer's
`Cyprus` rows, build `full_cy` with the given reprojected `north_cy`, and
write it back to the `Cyprus` rows. -/
def cyprusStep (north_cy : Geo) (world : List WRow) : List WRow :=
  let south_cy := (world.filter (fun r => r.NAME = "Cyprus")).map (fun r => r.geometry)
  world.map fun r =>
    if r.NAME = "Cyprus" then { r with geometry := full_cy south_cy north_cy } else r

/-! ## Bar chart script: preparation, sorting, colour normalization -/

/-- A row of the bar chart script's dataframe (columns it touches). -/
structure BRow where
  country : String
  hw_2007 : ℚ
  hw_2024 : ℚ

/-- `not_in_usd`: the countries excluded from the bar chart. -/
def not_in_usd : List String := ["Bulgaria", "Romania", "Croatia"]

/-- `df.replace("OECD", "OECD average")`: full-cell replacement in every
string cell; `country` is the only string column. -/
def replaceOECD (r : BRow) : BRow :=
  { r with country := if r.country = "OECD" then "OECD average" else r.country }

/-- The bar chart preparation (lines 63-68): drop the rows whose country is in
`not_in_usd`, then apply the `OECD` renaming. -/
def prep (rows : List BRow) : List BRow :=
  (rows.filter (fun r => !(not_in_usd.contains r.country))).map replaceOECD

/-- `df_2007_sorted = df.sort_values('hw_2007')`: ascending sort by the 2007
wage. -/
def df_2007_sorted (rows : List BRow) : List BRow :=
  rows.insertionSort (fun a b => a.hw_2007 ≤ b.hw_2007)

/-- `df_2024_sorted = df.sort_values('hw_2024')`: ascending sort by the 2024
wage. -/
def df_2024_sorted (rows : List BRow) : List BRow :=
  rows.insertionSort (fun a b => a.hw_2024 ≤ b.hw_2024)

/-- `matplotlib.colors.Normalize(vmin, vmax)` applied to `v`:
`(v - vmin) / (vmax - vmin)`. -/
def normalize (vmin vmax v : ℚ) : ℚ := (v - vmin) / (vmax - vmin)

/-- `Series.min()` of a wage column. -/
def colMin (l : List ℚ) : Option ℚ := l.min?

/-- `Series.max()` of a wage column. -/
def colMax (l : List ℚ) : Option ℚ := l.max?

/-- The colour list of `bars1`/`bars2`: each wage `v` of the series is coloured
by the colormap applied to the series' own normalization of `v`.  The YlGnBu
colormap itself is an opaque table lookup, so it enters as a parameter. -/
def barColors {C : Type} (cmap : ℚ → C) (vmin vmax : ℚ) (vals : List ℚ) : List C :=
  vals.map (fun v => cmap (normalize vmin vmax v))

/-! ## The composed geographic adjustments (for the frame-effect claim) -/

/-- `df_mrg.loc[df_mrg['NAME'] == name, 'geometry'] = g`: assign the
precomputed geometry `g` to every matching row, leave the rest alone. -/
def locSetGeom {G : Type} (name : String) (g : G) (rows : List (MRow G)) :
    List (MRow G) :=
  rows.map fun r => if r.NAME = name then { r with geometry := g } else r

/-- The post-merge adjustments of the map script in source order: the Crimea
transfer (lines 138-147) followed by the assignment of the precomputed
`clean_russia` (line 155). -/
def adjustments (crimea clean_russia : Geo) (rows : List (MRow Geo)) : List (MRow Geo) :=
  locSetGeom "Russia" clean_russia (crimeaAdjust crimea rows)

/-! ## The right join of the map script (lines 107-117) -/

/-- A row of the wage dataframe `df` as the map script merges it:
`country` and `pct_change_2007_2024` (nullable in the database). -/
structure WageRow where
  country : String
  pct : Option ℚ

/-- A row of the `europe` layer after column selection: `NAME` and geometry. -/
structure ERow (G : Type) where
  NAME : String
  geometry : G

/-- `pd.merge(df, europe, left_on='country', right_on='NAME', how='right')`:
every `europe` row is kept; a row with matching wage rows is paired with each
of them, and a row with none gets nulls in the wage columns.  A wage row that
matches no `NAME` contributes nothing. -/
def mergeRight {G : Type} (df : List WageRow) (europe : List (ERow G)) : List (MRow G) :=
  europe.flatMap fun e =>
    match df.filter (fun d => d.country = e.NAME) with
    | [] => [⟨none, none, e.NAME, e.geometry⟩]
    | ms => ms.map fun d => ⟨some d.country, d.pct, e.NAME, e.geometry⟩

/-- The fill style of a plotted row: rows whose `change_bins` is null are drawn
with `missing_kwds`' colour `lightgrey` (the `No data` style); the rest are
coloured by their bin label. -/
def plotStyle {G : Type} (r : MRow G) : String :=
  match change_bins r.pct with
  | none => "lightgrey"
  | some lbl => lbl

/-! ## Claim theorems (first slice) -/

/-- **C1.** Every non-null percentage-change value is assigned exactly one of the
seven fixed labels, by right-closed intervals over the thresholds
0, 10, 20, 30, 40, 60, exactly as the piecewise rule `specBin` states; a null
value is assigned no bin. -/
theorem change_bins_piecewise :
    (∀ v : ℚ, change_bins (some v) = some (specBin v) ∧ specBin v ∈ labels) ∧
    change_bins none = none := by
  refine ⟨fun v => ⟨?_, ?_⟩, rfl⟩
  · simp only [change_bins, bins_inner, labels, pdCutScan, specBin, Option.bind]
    split_ifs <;> rfl
  · simp only [specBin, labels]
    split_ifs <;> simp

/-- **C7.** Each script runs the one fixed, hard-coded query
`SELECT * FROM oecd_hw_change`, identical in both scripts. -/
theorem query_fixed :
    barchart_query = "SELECT * FROM oecd_hw_change" ∧ map_query = barchart_query :=
  ⟨rfl, rfl⟩

/-- **C2.** The Crimea adjustment maps each row of `df_mrg` as follows:
Russia's geometry becomes its previous geometry minus Crimea (hence disjoint
from Crimea), Ukraine's becomes its previous geometry united with Crimea
(hence containing Crimea), and every other row is left exactly as it was. -/
theorem crimeaAdjust_spec (crimea : Geo) (rows : List (MRow Geo)) :
    crimeaAdjust crimea rows = rows.map (fun r =>
      if r.NAME = "Russia" then { r with geometry := r.geometry \ crimea }
      else if r.NAME = "Ukraine" then { r with geometry := r.geometry ∪ crimea }
      else r) ∧
    (∀ g : Geo, Disjoint (g \ crimea) crimea ∧ crimea ⊆ g ∪ crimea) := by
  constructor
  · simp only [crimeaAdjust, locApplyGeom, List.map_map]
    refine List.map_congr_left fun r _ => ?_
    by_cases hr : r.NAME = "Russia"
    · simp [hr, buffer0]
    · by_cases hu : r.NAME = "Ukraine" <;> simp [hr, hu]
  · exact fun g => ⟨disjoint_sdiff_self_left, Set.subset_union_right⟩

/-- **C3.** After the island-removal step, the `Russia` rows carry exactly the
parts of the exploded post-Crimea Russia geometry whose area strictly exceeds
`min_area = 0.10` (a part belongs to the new geometry iff it was a Russia part
with `area > 0.10`), and every row other than `Russia` is left exactly as it
was. -/
theorem cleanRussiaStep_spec (rows : List PRow) :
    cleanRussiaStep rows = rows.map (fun r =>
      if r.NAME = "Russia" then
        { r with geometry :=
            (((rows.filter (fun s => s.NAME = "Russia")).flatMap (fun s => s.geometry)).filter
              (fun part => min_area < part.area)) }
      else r) ∧
    (∀ (l : List GPart) (part : GPart),
      part ∈ l.filter (fun q => min_area < q.area) ↔ part ∈ l ∧ (1 : ℚ) / 10 < part.area) := by
  refine ⟨rfl, fun l part => ?_⟩
  rw [List.mem_filter]
  have : min_area = (1 : ℚ) / 10 := by norm_num [min_area]
  simp [this]

/-- **C6.** The Cyprus step replaces exactly the `Cyprus` rows' geometry by
`full_cy`, the union of the world layer's `Cyprus` geometry and the
reprojected `N. Cyprus` geometry smoothed by a morphological closing of
radius 0.05 (dilation by 0.05 then erosion by 0.05); and a closing only grows:
the replacement contains the original union of the two halves. -/
theorem cyprusStep_spec (north_cy : Geo) (world : List WRow) :
    cyprusStep north_cy world = world.map (fun r =>
      if r.NAME = "Cyprus" then
        { r with geometry :=
            (bufferNeg (5 / 100)
              (bufferPos (5 / 100)
                (unary_union
                  (((world.filter (fun s => s.NAME = "Cyprus")).map (fun s => s.geometry))
                    ++ [north_cy])))) }
      else r) ∧
    (∀ g : Geo, g ⊆ closing (5 / 100) g) := by
  refine ⟨rfl, fun g p hp q hq => ?_⟩
  exact ⟨p, hp, hq⟩

/-- **C4.** The left subplot lists the filtered rows in ascending order of
`hw_2007` and the right subplot in ascending order of `hw_2024`; each sorted
list is a permutation of the same filtered row set (so the two orderings are
permutations of one another), and sorting changes no country name or wage
value (the rows themselves are merely reordered). -/
theorem sorted_subplots (rows : List BRow) :
    List.Sorted (fun a b => a.hw_2007 ≤ b.hw_2007) (df_2007_sorted (prep rows)) ∧
    List.Sorted (fun a b => a.hw_2024 ≤ b.hw_2024) (df_2024_sorted (prep rows)) ∧
    (df_2007_sorted (prep rows)).Perm (prep rows) ∧
    (df_2024_sorted (prep rows)).Perm (prep rows) ∧
    (df_2007_sorted (prep rows)).Perm (df_2024_sorted (prep rows)) := by
  haveI h1 : IsTotal BRow (fun a b => a.hw_2007 ≤ b.hw_2007) := ⟨fun a b => le_total _ _⟩
  haveI h2 : IsTrans BRow (fun a b => a.hw_2007 ≤ b.hw_2007) := ⟨fun _ _ _ => le_trans⟩
  haveI h3 : IsTotal BRow (fun a b => a.hw_2024 ≤ b.hw_2024) := ⟨fun a b => le_total _ _⟩
  haveI h4 : IsTrans BRow (fun a b => a.hw_2024 ≤ b.hw_2024) := ⟨fun _ _ _ => le_trans⟩
  refine ⟨List.sorted_insertionSort _ _, List.sorted_insertionSort _ _,
    List.perm_insertionSort _ _, List.perm_insertionSort _ _, ?_⟩
  exact (List.perm_insertionSort _ _).trans (List.perm_insertionSort _ _).symm

/-- **C5.** Each wage series is normalized separately for colouring: with
`vmin`/`vmax` the series' own minimum and maximum, a bar of wage `v` gets
colour `cmap ((v - vmin) / (vmax - vmin))`, the series' minimum normalizes to
0 and its maximum to 1. -/
theorem series_normalized {C : Type} (cmap : ℚ → C) (rows : List BRow)
    (m07 M07 m24 M24 : ℚ)
    (hm07 : colMin ((df_2007_sorted rows).map (fun r => r.hw_2007)) = some m07)
    (hM07 : colMax ((df_2007_sorted rows).map (fun r => r.hw_2007)) = some M07)
    (hm24 : colMin ((df_2024_sorted rows).map (fun r => r.hw_2024)) = some m24)
    (hM24 : colMax ((df_2024_sorted rows).map (fun r => r.hw_2024)) = some M24)
    (h07 : m07 ≠ M07) (h24 : m24 ≠ M24) :
    barColors cmap m07 M07 ((df_2007_sorted rows).map (fun r => r.hw_2007)) =
      ((df_2007_sorted rows).map (fun r => r.hw_2007)).map
        (fun v => cmap ((v - m07) / (M07 - m07))) ∧
    barColors cmap m24 M24 ((df_2024_sorted rows).map (fun r => r.hw_2024)) =
      ((df_2024_sorted rows).map (fun r => r.hw_2024)).map
        (fun v => cmap ((v - m24) / (M24 - m24))) ∧
    normalize m07 M07 m07 = 0 ∧ normalize m07 M07 M07 = 1 ∧
    normalize m24 M24 m24 = 0 ∧ normalize m24 M24 M24 = 1 := by
  refine ⟨rfl, rfl, ?_, ?_, ?_, ?_⟩
  · simp [normalize]
  · exact div_self (sub_ne_zero_of_ne (Ne.symm h07))
  · simp [normalize]
  · exact div_self (sub_ne_zero_of_ne (Ne.symm h24))

/-- Concrete wage rows for evaluating `series_normalized`. -/
def wageRowsEx : List BRow := [⟨"Austria", 1, 5⟩, ⟨"Belgium", 3, 2⟩]

/-- Witness for **C5** at a concrete two-row series: the hypotheses hold and
the normalization maps each series' min to 0 and max to 1. -/
theorem series_normalized_witness :
    barColors id 1 3 ((df_2007_sorted wageRowsEx).map (fun r => r.hw_2007)) =
      ((df_2007_sorted wageRowsEx).map (fun r => r.hw_2007)).map
        (fun v => id ((v - 1) / (3 - 1))) ∧
    barColors id 2 5 ((df_2024_sorted wageRowsEx).map (fun r => r.hw_2024)) =
      ((df_2024_sorted wageRowsEx).map (fun r => r.hw_2024)).map
        (fun v => id ((v - 2) / (5 - 2))) ∧
    normalize 1 3 1 = 0 ∧ normalize 1 3 3 = 1 ∧
    normalize 2 5 2 = 0 ∧ normalize 2 5 5 = 1 :=
  series_normalized id wageRowsEx 1 3 2 5 (by decide) (by decide) (by decide) (by decide)
    (by decide) (by decide)

/-- **C9.** A row survives the bar chart preparation iff it comes from an
input row whose country is not Bulgaria, Romania or Croatia, with `OECD`
renamed to `OECD average`; the renaming never touches the wage columns and
leaves every country other than `OECD` unchanged. -/
theorem prep_spec (rows : List BRow) (r : BRow) :
    (r ∈ prep rows ↔ ∃ s, s ∈ rows ∧ s.country ∉ not_in_usd ∧ r = replaceOECD s) ∧
    (∀ s : BRow, (replaceOECD s).hw_2007 = s.hw_2007 ∧ (replaceOECD s).hw_2024 = s.hw_2024 ∧
      (replaceOECD s).country = (if s.country = "OECD" then "OECD average" else s.country)) := by
  constructor
  · simp only [prep, List.mem_map, List.mem_filter, Bool.not_eq_eq_eq_not, Bool.not_true,
      List.contains_eq_any_beq, List.any_eq_false, beq_iff_eq]
    constructor
    · rintro ⟨s, ⟨hs, hns⟩, rfl⟩
      exact ⟨s, hs, fun hmem => hns _ hmem rfl, rfl⟩
    · rintro ⟨s, hs, hns, rfl⟩
      exact ⟨s, ⟨hs, fun c hc hcs => hns (hcs ▸ hc)⟩, rfl⟩
  · exact fun s => ⟨rfl, rfl, rfl⟩

/-- **C8.** The merge keeps every geometry row: each `europe` row appears in
the result with its `NAME` and geometry; a geometry row with no matching wage
row yields a row with null wage columns, whose bin is null and which is drawn
in the `lightgrey` `No data` style; and every merged row's `NAME` comes from a
geometry row, its `country` being either null or equal to that `NAME`, so a
wage row matching no geometry row contributes no merged row. -/
theorem mergeRight_spec {G : Type} (df : List WageRow) (europe : List (ERow G)) :
    (∀ e ∈ europe, ∃ m ∈ mergeRight df europe, m.NAME = e.NAME ∧ m.geometry = e.geometry) ∧
    (∀ e ∈ europe, df.filter (fun d => d.country = e.NAME) = [] →
      (⟨none, none, e.NAME, e.geometry⟩ : MRow G) ∈ mergeRight df europe ∧
      change_bins (none : Option ℚ) = none ∧
      plotStyle (⟨none, none, e.NAME, e.geometry⟩ : MRow G) = "lightgrey") ∧
    (∀ m ∈ mergeRight df europe, ∃ e ∈ europe, m.NAME = e.NAME ∧
      (m.country = none ∨ m.country = some e.NAME)) := by
  refine ⟨?_, ?_, ?_⟩
  · intro e he
    cases hf : df.filter (fun d => d.country = e.NAME) with
    | nil =>
      exact ⟨⟨none, none, e.NAME, e.geometry⟩,
        List.mem_flatMap.mpr ⟨e, he, by simp [mergeRight, hf]⟩, rfl, rfl⟩
    | cons d ds =>
      refine ⟨⟨some d.country, d.pct, e.NAME, e.geometry⟩,
        List.mem_flatMap.mpr ⟨e, he, ?_⟩, rfl, rfl⟩
      simp [mergeRight, hf]
  · intro e he hf
    exact ⟨List.mem_flatMap.mpr ⟨e, he, by simp [mergeRight, hf]⟩, rfl, rfl⟩
  · intro m hm
    obtain ⟨e, he, hme⟩ := List.mem_flatMap.mp hm
    refine ⟨e, he, ?_⟩
    revert hme
    cases hf : df.filter (fun d => d.country = e.NAME) with
    | nil =>
      intro hme
      simp only [mergeRight, hf, List.mem_singleton] at hme
      subst hme
      exact ⟨rfl, Or.inl rfl⟩
    | cons d ds =>
      intro hme
      simp only [mergeRight, hf, List.mem_map] at hme
      obtain ⟨d', hd', rfl⟩ := hme
      have : d' ∈ df.filter (fun x => x.country = e.NAME) := hf ▸ hd'
      have hc : d'.country = e.NAME := by
        have := (List.mem_filter.mp this).2
        simpa using this
      exact ⟨rfl, Or.inr (by rw [hc])⟩

/-- Concrete wage rows for evaluating `mergeRight_spec`: `Atlantis` matches no
geometry row. -/
def wageDfEx : List WageRow := [⟨"France", some 5⟩, ⟨"Atlantis", some 1⟩]

/-- Concrete geometry rows for evaluating `mergeRight_spec`: `Iceland` has no
wage row. -/
def europeEx : List (ERow ℕ) := [⟨"France", 0⟩, ⟨"Iceland", 1⟩]

/-- Witness for **C8** at a concrete join: the wage-less `Iceland` row survives
the right join with null wage columns, a null bin, and the `lightgrey`
`No data` style. -/
theorem mergeRight_spec_witness :
    (⟨none, none, "Iceland", 1⟩ : MRow ℕ) ∈ mergeRight wageDfEx europeEx ∧
    change_bins (none : Option ℚ) = none ∧
    plotStyle (⟨none, none, "Iceland", 1⟩ : MRow ℕ) = "lightgrey" :=
  (mergeRight_spec wageDfEx europeEx).2.1 ⟨"Iceland", 1⟩ (by simp [europeEx]) (by rfl)

/-- **C10.** The geographic adjustments touch only geometry: over the merged
frame, the post-merge adjustments preserve the `country` and
`pct_change_2007_2024` columns of every row (so each row keeps exactly the
wage value the right join loaded from the database) and rewrite only the
`Russia` and `Ukraine` geometries; the pre-merge Cyprus step rewrites only the
`Cyprus` geometry and preserves every non-geometry column of the world
layer. -/
theorem adjustments_frame (crimea clean_russia : Geo) (df : List WageRow)
    (europe : List (ERow Geo)) (north_cy : Geo) (world : List WRow) :
    (adjustments crimea clean_russia (mergeRight df europe)).map (fun r => (r.country, r.pct)) =
      (mergeRight df europe).map (fun r => (r.country, r.pct)) ∧
    adjustments crimea clean_russia (mergeRight df europe) =
      (mergeRight df europe).map (fun r =>
        if r.NAME = "Russia" then { r with geometry := clean_russia }
        else if r.NAME = "Ukraine" then { r with geometry := r.geometry ∪ crimea }
        else r) ∧
    cyprusStep north_cy world = world.map (fun r =>
      if r.NAME = "Cyprus" then
        { r with geometry :=
            (full_cy ((world.filter (fun s => s.NAME = "Cyprus")).map (fun s => s.geometry))
              north_cy) }
      else r) ∧
    (cyprusStep north_cy world).map (fun r => (r.NAME, r.CONTINENT)) =
      world.map (fun r => (r.NAME, r.CONTINENT)) := by
  have hadj : adjustments crimea clean_russia (mergeRight df europe) =
      (mergeRight df europe).map (fun r =>
        if r.NAME = "Russia" then { r with geometry := clean_russia }
        else if r.NAME = "Ukraine" then { r with geometry := r.geometry ∪ crimea }
        else r) := by
    simp only [adjustments, crimeaAdjust, locApplyGeom, locSetGeom, List.map_map]
    refine List.map_congr_left fun r _ => ?_
    by_cases hr : r.NAME = "Russia"
    · simp [hr]
    · by_cases hu : r.NAME = "Ukraine" <;> simp [hr, hu]
  refine ⟨?_, hadj, rfl, ?_⟩
  · rw [hadj, List.map_map]
    refine List.map_congr_left fun r _ => ?_
    by_cases hr : r.NAME = "Russia"
    · simp [hr]
    · by_cases hu : r.NAME = "Ukraine" <;> simp [hr, hu]
  · simp only [cyprusStep, List.map_map]
    refine List.map_congr_left fun r _ => ?_
    by_cases hc : r.NAME = "Cyprus" <;> simp [hc]

end HourlyWages
